import Mathlib

/-!
Verification development for the Drone-MOB repository.

Shallow embedding of the parts of the code the claims are about:

* `src/drone/core/ai/prob_search.py` — the probabilistic search grid
  (`ProbabilisticSearchManager`): `initialize_map`, `update_map`,
  `evolve_map`, `get_next_search_waypoint`, `confirm_target_at`.
* `src/drone/core/state_machine.py` — the mission state machine built on the
  `transitions` library (`MissionStateMachine`).
* `src/drone/core/mission.py` (`_health_monitor`) together with
  `src/drone/core/drone.py` (`is_healthy`).
* `src/coordinator/coordinator.py` (`trigger_mob_event`,
  `_find_drone_by_role`).

Python floats are modelled as exact rationals (`ℚ`); machine integers do not
overflow in any of the modelled code paths.  NumPy arrays of shape (n, n) are
modelled as functions `Fin n × Fin n → ℚ` indexed `(row, col)` as the source
indexes `grid[row, col]`.  The configured `grid_size` appears as the type
parameter `n`.
-/

namespace DroneMob

/-- `core.position.Position`: a triple of reals (meters). -/
structure Position where
  x : ℚ
  y : ℚ
  z : ℚ
deriving DecidableEq

/-- `SearchAreaConfig` from `config_models.py`: the center of the search
area. -/
structure SearchAreaConfig where
  x : ℚ
  y : ℚ
  z : ℚ
deriving DecidableEq

/-- `ProbSearchConfig` from `config_models.py`, minus `grid_size`, which is
the type-level parameter `n` of the grid, and the two loop intervals, which
no modelled operation reads. -/
structure ProbSearchConfig where
  search_area_size_m : ℚ
  search_altitude : ℚ
  r_max : ℚ
  h_ref : ℚ
  miss_probability : ℚ
  drift_x_m_s : ℚ
  drift_y_m_s : ℚ
deriving DecidableEq

/-- Python `int(q)` on a real: truncation toward zero. -/
def pytrunc (q : ℚ) : ℤ := if 0 ≤ q then ⌊q⌋ else ⌈q⌉

theorem pytrunc_eq_zero {q : ℚ} (h1 : -1 < q) (h2 : q < 1) : pytrunc q = 0 := by
  unfold pytrunc
  split
  · rw [Int.floor_eq_zero_iff]
    constructor <;> simp_all
  · rw [Int.ceil_eq_zero_iff]
    constructor
    · linarith
    · simpa using le_of_not_le (by assumption)

/-- The probability field `p(x, y)`: an n×n array of reals, indexed
`(row, col)`. -/
@[reducible] def Grid (n : ℕ) : Type := Fin n × Fin n → ℚ

namespace Grid

/-- `np.sum(grid)`. -/
def total (g : Grid n) : ℚ := ∑ p : Fin n × Fin n, g p

end Grid

section ProbSearch

variable (n : ℕ) [NeZero n]

theorem n_pos : 0 < n := Nat.pos_of_ne_zero (NeZero.ne n)

/-- `self.cell_size = config.search_area_size_m / config.grid_size`. -/
def cell_size (cfg : ProbSearchConfig) : ℚ := cfg.search_area_size_m / n

/-- The vector of cell-center coordinates built by
`np.linspace(-half_area + cell/2, half_area - cell/2, grid_size)` in
`_create_cell_centers`: the k-th entry is `-half_area + cell/2 + k*cell`
(for `grid_size ≥ 2` the linspace step is exactly `cell_size`; for
`grid_size = 1` linspace returns the single start point, which the formula
also gives). -/
def coords (cfg : ProbSearchConfig) (k : Fin n) : ℚ :=
  -(cfg.search_area_size_m / 2) + cell_size n cfg / 2 + k.val * cell_size n cfg

/-- `self.cell_centers_x[row, col]`: `np.meshgrid` with default indexing
gives `X[i, j] = coords[j]`. -/
def cell_centers_x (cfg : ProbSearchConfig) (p : Fin n × Fin n) : ℚ :=
  coords n cfg p.2

/-- `self.cell_centers_y[row, col] = coords[row]`. -/
def cell_centers_y (cfg : ProbSearchConfig) (p : Fin n × Fin n) : ℚ :=
  coords n cfg p.1

/-- `initialize_map`: fill with the uniform prior `1/(grid_size²)`. -/
def initialize_map : Grid n := fun _ => 1 / ((n : ℚ) * n)

end ProbSearch

section Argmax

variable {α : Type}

/-- First maximum of `f` over a list (`np.argmax` keeps the first occurrence
of the maximum in flattened row-major order). -/
def firstArgmax (f : α → ℚ) : List α → Option α
  | [] => none
  | x :: xs =>
    match firstArgmax f xs with
    | none => some x
    | some y => if f y > f x then some y else some x

theorem firstArgmax_eq_none (f : α → ℚ) :
    ∀ l : List α, firstArgmax f l = none ↔ l = [] := by
  intro l
  cases l with
  | nil => simp [firstArgmax]
  | cons x xs =>
    simp only [firstArgmax]
    cases firstArgmax f xs with
    | none => simp
    | some y =>
      by_cases h : f y > f x <;> simp [h]

theorem firstArgmax_spec (f : α → ℚ) (key : α → ℕ) :
    ∀ (l : List α), l.Pairwise (fun a b => key a < key b) →
    ∀ x, firstArgmax f l = some x →
      x ∈ l ∧ (∀ z ∈ l, f z ≤ f x) ∧ (∀ z ∈ l, f z = f x → key x ≤ key z) := by
  intro l
  induction l with
  | nil => intro _ x hx; simp [firstArgmax] at hx
  | cons a xs ih =>
    intro hpw x hx
    have hpw' : xs.Pairwise (fun a b => key a < key b) := hpw.of_cons
    have hlt : ∀ z ∈ xs, key a < key z := fun z hz =>
      List.rel_of_pairwise_cons hpw hz
    simp only [firstArgmax] at hx
    cases hy : firstArgmax f xs with
    | none =>
      have hxs : xs = [] := (firstArgmax_eq_none f xs).mp hy
      rw [hy] at hx
      simp at hx
      subst hx hxs
      refine ⟨List.mem_cons_self a _, ?_, ?_⟩ <;> intro z hz <;> simp at hz <;>
        simp [hz]
    | some y =>
      rw [hy] at hx
      replace hx : (if f y > f a then some y else some a) = some x := hx
      obtain ⟨hymem, hymax, hyfst⟩ := ih hpw' y hy
      by_cases hcmp : f y > f a
      · rw [if_pos hcmp] at hx
        obtain rfl : y = x := by simpa using hx
        refine ⟨List.mem_cons_of_mem a hymem, ?_, ?_⟩
        · intro z hz
          rcases List.mem_cons.mp hz with rfl | hz
          · exact le_of_lt hcmp
          · exact hymax z hz
        · intro z hz hfz
          rcases List.mem_cons.mp hz with rfl | hz
          · exact absurd hfz (ne_of_gt hcmp).symm
          · exact hyfst z hz hfz
      · rw [if_neg hcmp] at hx
        obtain rfl : a = x := by simpa using hx
        refine ⟨List.mem_cons_self a _, ?_, ?_⟩
        · intro z hz
          rcases List.mem_cons.mp hz with rfl | hz
          · exact le_refl _
          · exact le_trans (hymax z hz) (le_of_not_lt hcmp)
        · intro z hz _
          rcases List.mem_cons.mp hz with rfl | hz
          · exact le_refl _
          · exact le_of_lt (hlt z hz)

end Argmax

section RowMajor

variable (n : ℕ) [NeZero n]

/-- Row-major (C-order) flat index of a cell, as used by `np.argmax` /
`np.unravel_index` on the flattened grid. -/
def rowMajor (p : Fin n × Fin n) : ℕ := p.1.val * n + p.2.val

/-- All cells in row-major order (the flattened enumeration order of the
NumPy array). -/
def idxList : List (Fin n × Fin n) :=
  (List.finRange (n * n)).map fun k =>
    (⟨k.val / n, Nat.div_lt_of_lt_mul k.isLt⟩,
     ⟨k.val % n, Nat.mod_lt _ (n_pos n)⟩)

theorem rowMajor_idxList_elt (k : Fin (n * n)) :
    rowMajor n (⟨k.val / n, Nat.div_lt_of_lt_mul k.isLt⟩,
      ⟨k.val % n, Nat.mod_lt _ (n_pos n)⟩) = k.val := by
  simp only [rowMajor]
  exact Nat.div_add_mod' k.val n

theorem mem_idxList (p : Fin n × Fin n) : p ∈ idxList n := by
  have hk : p.1.val * n + p.2.val < n * n := by
    have h1 : p.1.val + 1 ≤ n := p.1.isLt
    have h2 : p.2.val < n := p.2.isLt
    calc p.1.val * n + p.2.val < p.1.val * n + n := by omega
    _ = (p.1.val + 1) * n := by ring
    _ ≤ n * n := Nat.mul_le_mul_right n h1
  refine List.mem_map.mpr ⟨⟨p.1.val * n + p.2.val, hk⟩, List.mem_finRange _, ?_⟩
  have hn : 0 < n := n_pos n
  have hdiv : (p.1.val * n + p.2.val) / n = p.1.val := by
    rw [Nat.mul_comm, Nat.mul_add_div hn, Nat.div_eq_of_lt p.2.isLt,
      Nat.add_zero]
  have hmod : (p.1.val * n + p.2.val) % n = p.2.val := by
    rw [Nat.mul_comm, Nat.mul_add_mod, Nat.mod_eq_of_lt p.2.isLt]
  refine Prod.ext ?_ ?_ <;> apply Fin.ext <;> simp [hdiv, hmod]

theorem pairwise_idxList :
    (idxList n).Pairwise (fun a b => rowMajor n a < rowMajor n b) := by
  refine List.Pairwise.map _ ?_ (List.pairwise_lt_finRange (n * n))
  intro a b hab
  rw [rowMajor_idxList_elt, rowMajor_idxList_elt]
  exact hab

/-- `np.unravel_index(np.argmax(grid), grid.shape)`: the first
maximum-probability cell in row-major order. -/
def argmaxCell (g : Grid n) : Fin n × Fin n :=
  (firstArgmax g (idxList n)).getD (⟨0, n_pos n⟩, ⟨0, n_pos n⟩)

theorem firstArgmax_idxList (g : Grid n) :
    firstArgmax g (idxList n) = some (argmaxCell n g) := by
  cases h : firstArgmax g (idxList n) with
  | none =>
    have hnil : idxList n = [] := (firstArgmax_eq_none g _).mp h
    have hmem := mem_idxList n (⟨0, n_pos n⟩, ⟨0, n_pos n⟩)
    rw [hnil] at hmem
    exact absurd hmem (List.not_mem_nil _)
  | some y => simp [argmaxCell, h]

theorem argmaxCell_spec (g : Grid n) :
    (∀ p, g p ≤ g (argmaxCell n g)) ∧
      (∀ p, g p = g (argmaxCell n g) →
        rowMajor n (argmaxCell n g) ≤ rowMajor n p) := by
  obtain ⟨-, hmax, hfst⟩ :=
    firstArgmax_spec g (rowMajor n) (idxList n) (pairwise_idxList n)
      (argmaxCell n g) (firstArgmax_idxList n g)
  exact ⟨fun p => hmax p (mem_idxList n p), fun p => hfst p (mem_idxList n p)⟩

/-- A cell that is strictly larger than every other cell is the argmax. -/
theorem argmaxCell_eq_of_unique (g : Grid n) (q : Fin n × Fin n)
    (h : ∀ p, p ≠ q → g p < g q) : argmaxCell n g = q := by
  by_contra hne
  have h1 := (argmaxCell_spec n g).1 q
  have h2 := h (argmaxCell n g) hne
  exact absurd (lt_of_le_of_lt h1 h2) (lt_irrefl _)

end RowMajor

section GridOps

variable (n : ℕ) [NeZero n]

/-- Index arithmetic of `np.roll`: `np.roll(a, s, axis)[i] = a[(i - s) % n]`
(Python `%` on ints is the Euclidean remainder, as Lean's `Int.emod` with a
positive modulus). -/
def shiftIdx (d : ℤ) (i : Fin n) : Fin n :=
  ⟨(((i.val : ℤ) - d) % (n : ℤ)).toNat, by
    have hn : 0 < (n : ℤ) := by exact_mod_cast n_pos n
    have h1 : 0 ≤ ((i.val : ℤ) - d) % (n : ℤ) :=
      Int.emod_nonneg _ (ne_of_gt hn)
    have h2 : ((i.val : ℤ) - d) % (n : ℤ) < n := Int.emod_lt_of_pos _ hn
    omega⟩

/-- `np.clip(k, 0, n - 1)`. -/
def clipIdx (z : ℤ) : Fin n :=
  ⟨(min (max z 0) ((n : ℤ) - 1)).toNat, by
    have hn : 0 < (n : ℤ) := by exact_mod_cast n_pos n
    have h1 : min (max z 0) ((n : ℤ) - 1) ≤ (n : ℤ) - 1 := min_le_right _ _
    omega⟩

/-- `get_next_search_waypoint`: world-space center of the first
maximum-probability cell at the configured search altitude; the returned
cell is then suppressed in place by `*= 0.1`.  The embedding returns the
waypoint together with the post-call grid. -/
def get_next_search_waypoint (cfg : ProbSearchConfig)
    (area : SearchAreaConfig) (g : Grid n) : Position × Grid n :=
  let rc := argmaxCell n g
  (⟨cell_centers_x n cfg rc + area.x, cell_centers_y n cfg rc + area.y,
      cfg.search_altitude⟩,
    Function.update g rc (g rc * (1 / 10)))

/-- `update_map`: for `has_detection` the method only logs and returns (the
re-centering logic at prob_search.py:92-93 is commented out), so the grid is
unchanged.  Otherwise every cell whose center lies strictly within the
sensor radius of the drone position is multiplied by `miss_probability`, and
the grid is renormalized when its sum is positive, else re-initialized. -/
def update_map (cfg : ProbSearchConfig) (g : Grid n) (drone_pos : Position)
    (drone_altitude : ℚ) (has_detection : Bool) : Grid n :=
  if has_detection then g
  else
    let sensor_radius :=
      cfg.r_max * (drone_altitude / (drone_altitude + cfg.h_ref))
    let masked : Grid n := fun p =>
      if (cell_centers_x n cfg p - drone_pos.x) ^ 2 +
          (cell_centers_y n cfg p - drone_pos.y) ^ 2 < sensor_radius ^ 2
      then g p * cfg.miss_probability
      else g p
    let total_prob := Grid.total masked
    if 0 < total_prob then (fun p => masked p / total_prob)
    else initialize_map n

/-- `evolve_map`: shift the grid cyclically by the truncated integer drifts
`int(drift * dt / cell_size)`; when both shifts are zero the `np.roll` call
is skipped and the grid is untouched. -/
def evolve_map (cfg : ProbSearchConfig) (g : Grid n) (dt : ℚ) : Grid n :=
  let dx := pytrunc (cfg.drift_x_m_s * dt / cell_size n cfg)
  let dy := pytrunc (cfg.drift_y_m_s * dt / cell_size n cfg)
  if dx = 0 ∧ dy = 0 then g
  else fun p => g (shiftIdx n dy p.1, shiftIdx n dx p.2)

/-- `confirm_target_at`: zero every cell, then set the cell containing
`pos` (indices truncated toward zero and clipped to the grid bounds)
to `1.0`.  The prior grid contents are discarded by `fill(0.0)`. -/
def confirm_target_at (cfg : ProbSearchConfig) (area : SearchAreaConfig)
    (pos : Position) : Grid n :=
  let half_area := cfg.search_area_size_m / 2
  let col := clipIdx n (pytrunc ((pos.x - area.x + half_area) / cell_size n cfg))
  let row := clipIdx n (pytrunc ((pos.y - area.y + half_area) / cell_size n cfg))
  fun p => if p = (row, col) then 1 else 0

end GridOps

section Shift

variable (n : ℕ) [NeZero n]

theorem shiftIdx_shiftIdx (d e : ℤ) (i : Fin n) :
    shiftIdx n e (shiftIdx n d i) = shiftIdx n (d + e) i := by
  have hn : 0 < (n : ℤ) := by exact_mod_cast n_pos n
  have key : ∀ a b : ℤ, (a % (n : ℤ) - b) % (n : ℤ) = (a - b) % (n : ℤ) := by
    intro a b
    conv_rhs => rw [Int.sub_emod]
    rw [Int.sub_emod, Int.emod_emod_of_dvd _ dvd_rfl]
  apply Fin.ext
  show ((((((i.val : ℤ) - d) % n).toNat : ℤ) - e) % n).toNat =
    (((i.val : ℤ) - (d + e)) % n).toNat
  rw [Int.toNat_of_nonneg (Int.emod_nonneg _ (ne_of_gt hn)), key, sub_sub]

theorem shiftIdx_zero (i : Fin n) : shiftIdx n 0 i = i := by
  apply Fin.ext
  show (((i.val : ℤ) - 0) % n).toNat = i.val
  rw [sub_zero,
    Int.emod_eq_of_lt (by positivity) (by exact_mod_cast i.isLt)]
  simp

/-- `shiftIdx` is a permutation of the indices (the torus translation of
`np.roll`). -/
def shiftPerm (d : ℤ) : Equiv (Fin n) (Fin n) where
  toFun := shiftIdx n d
  invFun := shiftIdx n (-d)
  left_inv := fun i => by
    rw [shiftIdx_shiftIdx, show d + -d = 0 by ring, shiftIdx_zero]
  right_inv := fun i => by
    rw [shiftIdx_shiftIdx, show -d + d = 0 by ring, shiftIdx_zero]

/-- The cell permutation performed by `np.roll(grid, (dy, dx), (0, 1))`. -/
def cellPerm (dy dx : ℤ) : Equiv (Fin n × Fin n) (Fin n × Fin n) :=
  Equiv.prodCongr (shiftPerm n dy) (shiftPerm n dx)

theorem total_comp_cellPerm (g : Grid n) (dy dx : ℤ) :
    Grid.total (fun p => g (cellPerm n dy dx p)) = Grid.total g :=
  Fintype.sum_equiv (cellPerm n dy dx) _ g (fun _ => rfl)

theorem map_univ_cellPerm (g : Grid n) (dy dx : ℤ) :
    Finset.univ.val.map (fun p => g (cellPerm n dy dx p)) =
      Finset.univ.val.map g := by
  have h : Finset.univ.val.map (cellPerm n dy dx) = Finset.univ.val := by
    have := Finset.map_univ_equiv (cellPerm n dy dx)
    calc Finset.univ.val.map (cellPerm n dy dx)
        = (Finset.univ.map (cellPerm n dy dx).toEmbedding).val := rfl
      _ = Finset.univ.val := by rw [this]
  calc Finset.univ.val.map (fun p => g (cellPerm n dy dx p))
      = (Finset.univ.val.map (cellPerm n dy dx)).map g := by
        rw [Multiset.map_map]; rfl
    _ = Finset.univ.val.map g := by rw [h]

end Shift

section Invariant

variable (n : ℕ) [NeZero n]

/-- One public operation on the probability grid, as named by the spec's
invariant 3. -/
inductive PSOp where
  | update (drone_pos : Position) (drone_altitude : ℚ) (has_detection : Bool)
  | evolve (dt : ℚ)
  | waypoint

/-- The grid after applying one operation (for `get_next_search_waypoint`
the returned waypoint is dropped, only the suppression side effect on the
grid is kept). -/
def applyOp (cfg : ProbSearchConfig) (area : SearchAreaConfig) (g : Grid n) :
    PSOp → Grid n
  | .update pos alt det => update_map n cfg g pos alt det
  | .evolve dt => evolve_map n cfg g dt
  | .waypoint => (get_next_search_waypoint n cfg area g).2

def runOps (cfg : ProbSearchConfig) (area : SearchAreaConfig) (g : Grid n)
    (ops : List PSOp) : Grid n :=
  ops.foldl (applyOp n cfg area) g

/-- The spec's probability-grid invariant: all cells nonnegative and the
total mass in (0, 1]. -/
def GridInv (g : Grid n) : Prop :=
  (∀ p, 0 ≤ g p) ∧ 0 < Grid.total g ∧ Grid.total g ≤ 1

theorem total_initialize_map : Grid.total (initialize_map n) = 1 := by
  have hn : ((n : ℚ) * n) ≠ 0 :=
    mul_ne_zero (Nat.cast_ne_zero.mpr (NeZero.ne n))
      (Nat.cast_ne_zero.mpr (NeZero.ne n))
  show (∑ _p : Fin n × Fin n, (1 : ℚ) / ((n : ℚ) * n)) = 1
  rw [Finset.sum_const, Finset.card_univ, Fintype.card_prod,
    Fintype.card_fin, nsmul_eq_mul]
  push_cast
  field_simp

theorem gridInv_initialize_map : GridInv n (initialize_map n) := by
  refine ⟨fun p => by unfold initialize_map; positivity, ?_, ?_⟩ <;>
    rw [total_initialize_map] <;> norm_num

theorem gridInv_update_map (cfg : ProbSearchConfig) (g : Grid n)
    (pos : Position) (alt : ℚ) (det : Bool)
    (hmiss : 0 ≤ cfg.miss_probability) (hg : GridInv n g) :
    GridInv n (update_map n cfg g pos alt det) := by
  obtain ⟨hnn, hpos, hle⟩ := hg
  unfold update_map
  cases det with
  | true => exact ⟨hnn, hpos, hle⟩
  | false =>
    simp only [Bool.false_eq_true, if_false]
    set masked : Grid n := fun p =>
      if (cell_centers_x n cfg p - pos.x) ^ 2 +
          (cell_centers_y n cfg p - pos.y) ^ 2 <
          (cfg.r_max * (alt / (alt + cfg.h_ref))) ^ 2
      then g p * cfg.miss_probability
      else g p with hmasked
    have hmn : ∀ p, 0 ≤ masked p := by
      intro p
      rw [hmasked]
      dsimp only
      split
      · exact mul_nonneg (hnn p) hmiss
      · exact hnn p
    by_cases htot : 0 < Grid.total masked
    · rw [if_pos htot]
      have hsum : Grid.total (fun p => masked p / Grid.total masked) = 1 := by
        show (∑ p : Fin n × Fin n, masked p / Grid.total masked) = 1
        rw [← Finset.sum_div]
        exact div_self (ne_of_gt htot)
      exact ⟨fun p => div_nonneg (hmn p) (le_of_lt htot),
        by rw [hsum]; norm_num, by rw [hsum]⟩
    · rw [if_neg htot]
      exact gridInv_initialize_map n

theorem gridInv_evolve_map (cfg : ProbSearchConfig) (g : Grid n) (dt : ℚ)
    (hg : GridInv n g) : GridInv n (evolve_map n cfg g dt) := by
  obtain ⟨hnn, hpos, hle⟩ := hg
  rw [show evolve_map n cfg g dt =
    (if pytrunc (cfg.drift_x_m_s * dt / cell_size n cfg) = 0 ∧
        pytrunc (cfg.drift_y_m_s * dt / cell_size n cfg) = 0 then g
      else fun p =>
        g (shiftIdx n (pytrunc (cfg.drift_y_m_s * dt / cell_size n cfg)) p.1,
           shiftIdx n (pytrunc (cfg.drift_x_m_s * dt / cell_size n cfg)) p.2))
    from rfl]
  split
  · exact ⟨hnn, hpos, hle⟩
  · refine ⟨fun p => hnn _, ?_, ?_⟩ <;>
      rw [show (Grid.total fun p =>
        g (shiftIdx n (pytrunc (cfg.drift_y_m_s * dt / cell_size n cfg)) p.1,
           shiftIdx n (pytrunc (cfg.drift_x_m_s * dt / cell_size n cfg)) p.2)) =
        Grid.total g from total_comp_cellPerm n g _ _] <;> assumption

theorem single_le_total (g : Grid n) (hnn : ∀ p, 0 ≤ g p)
    (q : Fin n × Fin n) : g q ≤ Grid.total g :=
  Finset.single_le_sum (fun p _ => hnn p) (Finset.mem_univ q)

theorem total_update_single (g : Grid n) (q : Fin n × Fin n) (v : ℚ) :
    Grid.total (Function.update g q v) = Grid.total g - g q + v := by
  show (∑ p : Fin n × Fin n, Function.update g q v p) =
    (∑ p : Fin n × Fin n, g p) - g q + v
  rw [Finset.sum_update_of_mem (Finset.mem_univ q), ← Finset.erase_eq,
    ← Finset.add_sum_erase _ g (Finset.mem_univ q)]
  ring

theorem gridInv_waypoint (cfg : ProbSearchConfig) (area : SearchAreaConfig)
    (g : Grid n) (hg : GridInv n g) :
    GridInv n (get_next_search_waypoint n cfg area g).2 := by
  obtain ⟨hnn, hpos, hle⟩ := hg
  unfold get_next_search_waypoint
  dsimp only
  set rc := argmaxCell n g with hrc
  have hsingle : g rc ≤ Grid.total g := single_le_total n g hnn rc
  have hnn0 : 0 ≤ g rc := hnn rc
  have htot : Grid.total (Function.update g rc (g rc * (1 / 10))) =
      Grid.total g - g rc + g rc * (1 / 10) := total_update_single n g rc _
  refine ⟨?_, ?_, ?_⟩
  · intro p
    by_cases hp : p = rc
    · subst hp
      rw [Function.update_same]
      positivity
    · rw [Function.update_noteq hp]
      exact hnn p
  · rw [htot]; linarith
  · rw [htot]; linarith

theorem gridInv_runOps (cfg : ProbSearchConfig) (area : SearchAreaConfig)
    (hmiss : 0 ≤ cfg.miss_probability) :
    ∀ (ops : List PSOp) (g : Grid n), GridInv n g →
      GridInv n (runOps n cfg area g ops) := by
  intro ops
  induction ops with
  | nil => intro g hg; exact hg
  | cons op rest ih =>
    intro g hg
    show GridInv n (runOps n cfg area (applyOp n cfg area g op) rest)
    apply ih
    cases op with
    | update pos alt det => exact gridInv_update_map n cfg g pos alt det hmiss hg
    | evolve dt => exact gridInv_evolve_map n cfg g dt hg
    | waypoint => exact gridInv_waypoint n cfg area g hg

end Invariant

section GridClaims

/-- Concrete configuration for witnesses: the defaults of
`ProbSearchConfig` in `config_models.py` (grid_size 100 is replaced by the
small witness grid 2×2; the embedding's `n`). -/
def cfgW : ProbSearchConfig :=
  { search_area_size_m := 2000, search_altitude := 100, r_max := 500,
    h_ref := 50, miss_probability := 1 / 10, drift_x_m_s := 1 / 2,
    drift_y_m_s := 1 / 5 }

/-- Concrete search-area center for witnesses (the default (0,0,0)). -/
def areaW : SearchAreaConfig := ⟨0, 0, 0⟩

/-- Claim C1: starting from an initialized (non-collapsed) grid, after every
finite sequence of `update_map`, `evolve_map` and
`get_next_search_waypoint` calls, every cell is ≥ 0 and the sum of all
cells lies in (0, 1].  (Hypotheses: a nonempty grid and a nonnegative
configured miss probability.) -/
theorem C1_grid_invariant (n : ℕ) [NeZero n] (cfg : ProbSearchConfig)
    (area : SearchAreaConfig) (ops : List PSOp)
    (hmiss : 0 ≤ cfg.miss_probability) :
    (∀ p, 0 ≤ runOps n cfg area (initialize_map n) ops p) ∧
      0 < Grid.total (runOps n cfg area (initialize_map n) ops) ∧
      Grid.total (runOps n cfg area (initialize_map n) ops) ≤ 1 :=
  gridInv_runOps n cfg area hmiss ops (initialize_map n)
    (gridInv_initialize_map n)

theorem C1_grid_invariant_witness :
    (0 : ℚ) ≤ cfgW.miss_probability ∧
      ((∀ p, 0 ≤ runOps 2 cfgW areaW (initialize_map 2)
          [PSOp.waypoint, PSOp.update ⟨120, 80, 0⟩ 100 false, PSOp.evolve 5] p) ∧
        0 < Grid.total (runOps 2 cfgW areaW (initialize_map 2)
          [PSOp.waypoint, PSOp.update ⟨120, 80, 0⟩ 100 false, PSOp.evolve 5]) ∧
        Grid.total (runOps 2 cfgW areaW (initialize_map 2)
          [PSOp.waypoint, PSOp.update ⟨120, 80, 0⟩ 100 false, PSOp.evolve 5]) ≤ 1) :=
  ⟨by norm_num [cfgW],
    C1_grid_invariant 2 cfgW areaW
      [PSOp.waypoint, PSOp.update ⟨120, 80, 0⟩ 100 false, PSOp.evolve 5]
      (by norm_num [cfgW])⟩

/-- Claim C5 (amended): `update_map` with `has_detection = true` leaves the
grid completely unchanged — the detection branch of
`ProbabilisticSearchManager.update_map` only logs and returns (its
re-centering code at prob_search.py:92-93 is commented out). -/
theorem C5_detection_update_unchanged (n : ℕ) [NeZero n]
    (cfg : ProbSearchConfig) (g : Grid n) (pos : Position) (alt : ℚ) :
    update_map n cfg g pos alt true = g := rfl

theorem C5_detection_update_unchanged_witness :
    update_map 2 cfgW (initialize_map 2) ⟨120, 80, 0⟩ 100 true =
      initialize_map 2 :=
  C5_detection_update_unchanged 2 cfgW (initialize_map 2) ⟨120, 80, 0⟩ 100

/-- A concrete non-uniform, non-locked 2×2 grid state (cell (0,0) holds
1/40, the rest 1/4 — the shape left by one waypoint suppression of the
uniform prior). -/
def gX : Grid 2 := fun p => if p = (0, 0) then 1 / 40 else 1 / 4

/-- Claim C5 counterexample: a detection update (`has_detection = true`)
leaves the grid `gX` exactly as it was, and `gX` is neither the uniform
prior nor a locked grid (all cells 0 except a single 1) — so the update
does leave the grid in a configuration other than the two the claim
allows. -/
theorem C5_counterexample :
    update_map 2 cfgW gX ⟨120, 80, 0⟩ 100 true = gX ∧
    gX ≠ initialize_map 2 ∧
    ∀ rc : Fin 2 × Fin 2, gX ≠ fun p => if p = rc then 1 else 0 := by
  refine ⟨rfl, ?_, ?_⟩
  · intro h
    have h00 := congrFun h (0, 0)
    rw [gX, initialize_map] at h00
    norm_num at h00
  · intro rc h
    have h01 := congrFun h ((0 : Fin 2), (1 : Fin 2))
    rw [gX] at h01
    rcases eq_or_ne ((0 : Fin 2), (1 : Fin 2)) rc with hrc | hrc
    · rw [if_pos hrc, if_neg (by decide)] at h01
      norm_num at h01
    · rw [if_neg hrc, if_neg (by decide)] at h01
      norm_num at h01

theorem univNe (n : ℕ) [NeZero n] :
    (Finset.univ : Finset (Fin n × Fin n)).Nonempty :=
  ⟨(⟨0, n_pos n⟩, ⟨0, n_pos n⟩), Finset.mem_univ _⟩

theorem evolve_map_eq_roll (n : ℕ) [NeZero n] (cfg : ProbSearchConfig)
    (g : Grid n) (dt : ℚ) : ∀ p, evolve_map n cfg g dt p =
      g (shiftIdx n (pytrunc (cfg.drift_y_m_s * dt / cell_size n cfg)) p.1,
         shiftIdx n (pytrunc (cfg.drift_x_m_s * dt / cell_size n cfg)) p.2) := by
  intro p
  rw [show evolve_map n cfg g dt =
    (if pytrunc (cfg.drift_x_m_s * dt / cell_size n cfg) = 0 ∧
        pytrunc (cfg.drift_y_m_s * dt / cell_size n cfg) = 0 then g
      else fun q =>
        g (shiftIdx n (pytrunc (cfg.drift_y_m_s * dt / cell_size n cfg)) q.1,
           shiftIdx n (pytrunc (cfg.drift_x_m_s * dt / cell_size n cfg)) q.2))
    from rfl]
  split
  · rename_i h
    rw [h.2, h.1, shiftIdx_zero, shiftIdx_zero]
  · rfl

theorem sup'_comp_cellPerm (n : ℕ) [NeZero n] (g : Grid n) (dy dx : ℤ) :
    Finset.univ.sup' (univNe n) (fun p => g (cellPerm n dy dx p)) =
      Finset.univ.sup' (univNe n) g := by
  apply le_antisymm
  · apply Finset.sup'_le
    intro p _
    exact Finset.le_sup' g (Finset.mem_univ (cellPerm n dy dx p))
  · apply Finset.sup'_le
    intro p _
    have h : g p = g (cellPerm n dy dx ((cellPerm n dy dx).symm p)) := by
      rw [Equiv.apply_symm_apply]
    rw [h]
    exact Finset.le_sup' (fun q => g (cellPerm n dy dx q))
      (Finset.mem_univ ((cellPerm n dy dx).symm p))

/-- Claim C10: `evolve_map` applies a cyclic (wrap-around) shift by the
integer cell counts `int(drift_x*dt/cell_size)` and
`int(drift_y*dt/cell_size)` (truncation toward zero), so it permutes the
multiset of cell values — preserving the total, the maximum and
nonnegativity — and when both truncated shifts are zero (in particular
whenever `|drift*dt| < cell_size` on both axes) the grid is left
completely unchanged. -/
theorem C10_evolve_map_permutes (n : ℕ) [NeZero n] (cfg : ProbSearchConfig)
    (g : Grid n) (dt : ℚ) :
    (∀ p, evolve_map n cfg g dt p =
        g (shiftIdx n (pytrunc (cfg.drift_y_m_s * dt / cell_size n cfg)) p.1,
           shiftIdx n (pytrunc (cfg.drift_x_m_s * dt / cell_size n cfg)) p.2)) ∧
    Finset.univ.val.map (evolve_map n cfg g dt) = Finset.univ.val.map g ∧
    Grid.total (evolve_map n cfg g dt) = Grid.total g ∧
    Finset.univ.sup' (univNe n) (evolve_map n cfg g dt) =
      Finset.univ.sup' (univNe n) g ∧
    ((∀ p, 0 ≤ g p) → ∀ p, 0 ≤ evolve_map n cfg g dt p) ∧
    ((pytrunc (cfg.drift_x_m_s * dt / cell_size n cfg) = 0 ∧
        pytrunc (cfg.drift_y_m_s * dt / cell_size n cfg) = 0) →
      evolve_map n cfg g dt = g) ∧
    (|cfg.drift_x_m_s * dt| < cell_size n cfg →
      |cfg.drift_y_m_s * dt| < cell_size n cfg →
      evolve_map n cfg g dt = g) := by
  set dy := pytrunc (cfg.drift_y_m_s * dt / cell_size n cfg) with hdy_def
  set dx := pytrunc (cfg.drift_x_m_s * dt / cell_size n cfg) with hdx_def
  have h1 := evolve_map_eq_roll n cfg g dt
  have hfun : evolve_map n cfg g dt = fun p => g (cellPerm n dy dx p) :=
    funext h1
  have hzero : (dx = 0 ∧ dy = 0) → evolve_map n cfg g dt = g := by
    rintro ⟨hx, hy⟩
    funext p
    rw [h1 p, ← hdy_def, ← hdx_def, hy, hx, shiftIdx_zero, shiftIdx_zero]
  refine ⟨h1, ?_, ?_, ?_, ?_, hzero, ?_⟩
  · rw [hfun]
    exact map_univ_cellPerm n g dy dx
  · rw [hfun]
    exact total_comp_cellPerm n g dy dx
  · rw [hfun]
    exact sup'_comp_cellPerm n g dy dx
  · intro hg p
    rw [h1 p]
    exact hg _
  · intro hx hy
    have hcell : 0 < cell_size n cfg :=
      lt_of_le_of_lt (abs_nonneg (cfg.drift_x_m_s * dt)) hx
    have hqx : |cfg.drift_x_m_s * dt / cell_size n cfg| < 1 := by
      rw [abs_div, abs_of_pos hcell]
      exact (div_lt_one hcell).mpr hx
    have hqy : |cfg.drift_y_m_s * dt / cell_size n cfg| < 1 := by
      rw [abs_div, abs_of_pos hcell]
      exact (div_lt_one hcell).mpr hy
    obtain ⟨hqx1, hqx2⟩ := abs_lt.mp hqx
    obtain ⟨hqy1, hqy2⟩ := abs_lt.mp hqy
    exact hzero ⟨pytrunc_eq_zero hqx1 hqx2, pytrunc_eq_zero hqy1 hqy2⟩

theorem C10_evolve_map_permutes_witness :
    |cfgW.drift_x_m_s * 0| < cell_size 2 cfgW ∧
      |cfgW.drift_y_m_s * 0| < cell_size 2 cfgW ∧
      evolve_map 2 cfgW gX 0 = gX := by
  have hx : |cfgW.drift_x_m_s * 0| < cell_size 2 cfgW := by
    norm_num [cfgW, cell_size]
  have hy : |cfgW.drift_y_m_s * 0| < cell_size 2 cfgW := by
    norm_num [cfgW, cell_size]
  exact ⟨hx, hy, (C10_evolve_map_permutes 2 cfgW gX 0).2.2.2.2.2.2 hx hy⟩

theorem coords_abs_le (n : ℕ) [NeZero n] (cfg : ProbSearchConfig)
    (hS : 0 < cfg.search_area_size_m) (k : Fin n) :
    |coords n cfg k| ≤ cfg.search_area_size_m / 2 := by
  have hn0 : (0 : ℚ) < n := by exact_mod_cast n_pos n
  have hcell : 0 < cell_size n cfg := div_pos hS hn0
  have hnc : (n : ℚ) * cell_size n cfg = cfg.search_area_size_m := by
    rw [cell_size]
    field_simp
  have hk : (k.val : ℚ) ≤ (n : ℚ) - 1 := by
    have h : (k.val : ℚ) + 1 ≤ n := by exact_mod_cast k.isLt
    linarith
  have hk0 : (0 : ℚ) ≤ k.val := Nat.cast_nonneg _
  have hkc : (k.val : ℚ) * cell_size n cfg ≤
      ((n : ℚ) - 1) * cell_size n cfg :=
    mul_le_mul_of_nonneg_right hk (le_of_lt hcell)
  rw [abs_le, coords]
  constructor
  · nlinarith
  · nlinarith

/-- Claim C8: for a grid with at least one positive cell,
`get_next_search_waypoint` returns the world-space center of a
maximum-probability cell (ties broken by lowest row-major index) at the
configured search altitude, that Position lies within ±(S/2) of the area
center on each axis, and afterwards exactly that cell is multiplied by 0.1
while every other cell is unchanged. -/
theorem C8_next_waypoint (n : ℕ) [NeZero n] (cfg : ProbSearchConfig)
    (area : SearchAreaConfig) (g : Grid n)
    (hS : 0 < cfg.search_area_size_m) (hex : ∃ p, 0 < g p) :
    (∀ p, g p ≤ g (argmaxCell n g)) ∧
    (∀ p, g p = g (argmaxCell n g) →
      rowMajor n (argmaxCell n g) ≤ rowMajor n p) ∧
    (get_next_search_waypoint n cfg area g).1 =
      ⟨coords n cfg (argmaxCell n g).2 + area.x,
        coords n cfg (argmaxCell n g).1 + area.y, cfg.search_altitude⟩ ∧
    |(get_next_search_waypoint n cfg area g).1.x - area.x| ≤
      cfg.search_area_size_m / 2 ∧
    |(get_next_search_waypoint n cfg area g).1.y - area.y| ≤
      cfg.search_area_size_m / 2 ∧
    (get_next_search_waypoint n cfg area g).2 (argmaxCell n g) =
      g (argmaxCell n g) * (1 / 10) ∧
    (∀ p, p ≠ argmaxCell n g →
      (get_next_search_waypoint n cfg area g).2 p = g p) := by
  obtain ⟨hmax, hfst⟩ := argmaxCell_spec n g
  have hwp : (get_next_search_waypoint n cfg area g).1 =
      ⟨coords n cfg (argmaxCell n g).2 + area.x,
        coords n cfg (argmaxCell n g).1 + area.y, cfg.search_altitude⟩ := rfl
  refine ⟨hmax, hfst, hwp, ?_, ?_, ?_, ?_⟩
  · rw [hwp]
    show |coords n cfg (argmaxCell n g).2 + area.x - area.x| ≤
      cfg.search_area_size_m / 2
    rw [add_sub_cancel_right]
    exact coords_abs_le n cfg hS _
  · rw [hwp]
    show |coords n cfg (argmaxCell n g).1 + area.y - area.y| ≤
      cfg.search_area_size_m / 2
    rw [add_sub_cancel_right]
    exact coords_abs_le n cfg hS _
  · show Function.update g (argmaxCell n g)
      (g (argmaxCell n g) * (1 / 10)) (argmaxCell n g) = _
    rw [Function.update_same]
  · intro p hp
    show Function.update g (argmaxCell n g)
      (g (argmaxCell n g) * (1 / 10)) p = g p
    rw [Function.update_noteq hp]

theorem C8_next_waypoint_witness :
    (0 < cfgW.search_area_size_m) ∧ (∃ p, 0 < gX p) ∧
      ∀ p, gX p ≤ gX (argmaxCell 2 gX) := by
  have hS : (0 : ℚ) < cfgW.search_area_size_m := by norm_num [cfgW]
  have hex : ∃ p, 0 < gX p := ⟨(0, 0), by norm_num [gX]⟩
  exact ⟨hS, hex, (C8_next_waypoint 2 cfgW areaW gX hS hex).1⟩

theorem clipIdx_pytrunc_bounds (n : ℕ) [NeZero n] {c v : ℚ} (hc : 0 < c)
    (hv1 : 0 ≤ v) (hv2 : v < n * c) :
    ((clipIdx n (pytrunc (v / c))).val : ℚ) * c ≤ v ∧
      v < (((clipIdx n (pytrunc (v / c))).val : ℚ) + 1) * c := by
  have hq0 : 0 ≤ v / c := div_nonneg hv1 (le_of_lt hc)
  have hqn : v / c < n := (div_lt_iff hc).mpr hv2
  have htr : pytrunc (v / c) = ⌊v / c⌋ := if_pos hq0
  have hfl0 : 0 ≤ ⌊v / c⌋ := Int.le_floor.mpr (by exact_mod_cast hq0)
  have hfln : ⌊v / c⌋ < (n : ℤ) := Int.floor_lt.mpr (by exact_mod_cast hqn)
  have hclip : (clipIdx n (pytrunc (v / c))).val = ⌊v / c⌋.toNat := by
    rw [htr]
    show (min (max ⌊v / c⌋ 0) ((n : ℤ) - 1)).toNat = ⌊v / c⌋.toNat
    rw [max_eq_left hfl0, min_eq_left (by omega)]
  have hcast : ((⌊v / c⌋.toNat : ℕ) : ℚ) = (⌊v / c⌋ : ℚ) := by
    rw [← Int.cast_natCast, Int.toNat_of_nonneg hfl0]
  rw [hclip, hcast]
  constructor
  · calc (⌊v / c⌋ : ℚ) * c ≤ (v / c) * c :=
      mul_le_mul_of_nonneg_right (Int.floor_le _) (le_of_lt hc)
    _ = v := div_mul_cancel₀ v (ne_of_gt hc)
  · calc v = (v / c) * c := (div_mul_cancel₀ v (ne_of_gt hc)).symm
    _ < ((⌊v / c⌋ : ℚ) + 1) * c := by
      have h := Int.lt_floor_add_one (v / c)
      have h1 : (v / c) < (⌊v / c⌋ : ℚ) + 1 := by exact_mod_cast h
      exact mul_lt_mul_of_pos_right h1 hc

/-- Claim C4: for a position inside the configured search area,
`confirm_target_at(p)` followed immediately by
`get_next_search_waypoint()` returns the world-space center of the cell
containing p (the returned waypoint is within half a cell edge of p on
each axis) at the configured search altitude. -/
theorem C4_confirm_then_next_waypoint (n : ℕ) [NeZero n]
    (cfg : ProbSearchConfig) (area : SearchAreaConfig) (pos : Position)
    (hS : 0 < cfg.search_area_size_m)
    (hx1 : area.x - cfg.search_area_size_m / 2 ≤ pos.x)
    (hx2 : pos.x < area.x + cfg.search_area_size_m / 2)
    (hy1 : area.y - cfg.search_area_size_m / 2 ≤ pos.y)
    (hy2 : pos.y < area.y + cfg.search_area_size_m / 2) :
    (get_next_search_waypoint n cfg area
        (confirm_target_at n cfg area pos)).1.x - cell_size n cfg / 2 ≤
      pos.x ∧
    pos.x < (get_next_search_waypoint n cfg area
        (confirm_target_at n cfg area pos)).1.x + cell_size n cfg / 2 ∧
    (get_next_search_waypoint n cfg area
        (confirm_target_at n cfg area pos)).1.y - cell_size n cfg / 2 ≤
      pos.y ∧
    pos.y < (get_next_search_waypoint n cfg area
        (confirm_target_at n cfg area pos)).1.y + cell_size n cfg / 2 ∧
    (get_next_search_waypoint n cfg area
        (confirm_target_at n cfg area pos)).1.z = cfg.search_altitude := by
  have hn0 : (0 : ℚ) < n := by exact_mod_cast n_pos n
  have hc : 0 < cell_size n cfg := div_pos hS hn0
  have hnc : (n : ℚ) * cell_size n cfg = cfg.search_area_size_m := by
    rw [cell_size]
    field_simp
  set colI := clipIdx n (pytrunc
    ((pos.x - area.x + cfg.search_area_size_m / 2) / cell_size n cfg))
    with hcol
  set rowI := clipIdx n (pytrunc
    ((pos.y - area.y + cfg.search_area_size_m / 2) / cell_size n cfg))
    with hrow
  have hconf : confirm_target_at n cfg area pos =
      fun p => if p = (rowI, colI) then 1 else 0 := rfl
  have ham : argmaxCell n (confirm_target_at n cfg area pos) =
      (rowI, colI) := by
    apply argmaxCell_eq_of_unique
    intro p hp
    rw [hconf]
    dsimp only
    rw [if_neg hp, if_pos rfl]
    norm_num
  have hwp : (get_next_search_waypoint n cfg area
      (confirm_target_at n cfg area pos)).1 =
      ⟨coords n cfg colI + area.x, coords n cfg rowI + area.y,
        cfg.search_altitude⟩ := by
    show (⟨cell_centers_x n cfg
        (argmaxCell n (confirm_target_at n cfg area pos)) + area.x,
      cell_centers_y n cfg
        (argmaxCell n (confirm_target_at n cfg area pos)) + area.y,
      cfg.search_altitude⟩ : Position) = _
    rw [ham]
    rfl
  have hvx1 : (0 : ℚ) ≤ pos.x - area.x + cfg.search_area_size_m / 2 := by
    linarith
  have hvx2 : pos.x - area.x + cfg.search_area_size_m / 2 <
      n * cell_size n cfg := by
    rw [hnc]
    linarith
  have hvy1 : (0 : ℚ) ≤ pos.y - area.y + cfg.search_area_size_m / 2 := by
    linarith
  have hvy2 : pos.y - area.y + cfg.search_area_size_m / 2 <
      n * cell_size n cfg := by
    rw [hnc]
    linarith
  obtain ⟨hbx1, hbx2⟩ := clipIdx_pytrunc_bounds n hc hvx1 hvx2
  obtain ⟨hby1, hby2⟩ := clipIdx_pytrunc_bounds n hc hvy1 hvy2
  rw [← hcol] at hbx1 hbx2
  rw [← hrow] at hby1 hby2
  rw [hwp]
  have hcoordx : coords n cfg colI =
      -(cfg.search_area_size_m / 2) + cell_size n cfg / 2 +
        (colI.val : ℚ) * cell_size n cfg := rfl
  have hcoordy : coords n cfg rowI =
      -(cfg.search_area_size_m / 2) + cell_size n cfg / 2 +
        (rowI.val : ℚ) * cell_size n cfg := rfl
  refine ⟨?_, ?_, ?_, ?_, rfl⟩ <;> dsimp only
  · linarith [hcoordx]
  · linarith [hcoordx]
  · linarith [hcoordy]
  · linarith [hcoordy]

theorem C4_confirm_then_next_waypoint_witness :
    (0 < cfgW.search_area_size_m) ∧
    (areaW.x - cfgW.search_area_size_m / 2 ≤ (120 : ℚ)) ∧
    ((120 : ℚ) < areaW.x + cfgW.search_area_size_m / 2) ∧
    (areaW.y - cfgW.search_area_size_m / 2 ≤ (80 : ℚ)) ∧
    ((80 : ℚ) < areaW.y + cfgW.search_area_size_m / 2) ∧
    ((get_next_search_waypoint 2 cfgW areaW
        (confirm_target_at 2 cfgW areaW ⟨120, 80, 0⟩)).1.x -
        cell_size 2 cfgW / 2 ≤ 120) := by
  have h1 : (0 : ℚ) < cfgW.search_area_size_m := by norm_num [cfgW]
  have h2 : areaW.x - cfgW.search_area_size_m / 2 ≤ (120 : ℚ) := by
    norm_num [cfgW, areaW]
  have h3 : (120 : ℚ) < areaW.x + cfgW.search_area_size_m / 2 := by
    norm_num [cfgW, areaW]
  have h4 : areaW.y - cfgW.search_area_size_m / 2 ≤ (80 : ℚ) := by
    norm_num [cfgW, areaW]
  have h5 : (80 : ℚ) < areaW.y + cfgW.search_area_size_m / 2 := by
    norm_num [cfgW, areaW]
  exact ⟨h1, h2, h3, h4, h5,
    (C4_confirm_then_next_waypoint 2 cfgW areaW ⟨120, 80, 0⟩
      h1 h2 h3 h4 h5).1⟩

end GridClaims

section StateMachine

/-- `MissionPhase` from `state_machine.py` (P2P role refactor). -/
inductive MissionPhase where
  | IDLE
  | PREFLIGHT
  | TAKEOFF
  | ROLE_SEARCH_PRIMARY
  | ROLE_SEARCH_DELIVER
  | ROLE_SEARCH_ASSIST
  | ROLE_EMERGENCY_EYES
  | ROLE_EMERGENCY_STANDBY
  | ROLE_EMERGENCY_ASSIST
  | ROLE_UTILITY_TASK
  | TARGET_PENDING_CONFIRMATION
  | TARGET_CONFIRMED
  | DELIVERING
  | RETURNING
  | LANDING
  | COMPLETED
  | EMERGENCY
  | LOCAL_OPERATOR_CONTROL
deriving DecidableEq, Fintype

/-- The drone's configured role (`DroneConfig.role`, a validated literal in
`config_models.py`). -/
inductive Role where
  | scout
  | payload
  | utility
deriving DecidableEq, Fintype

/-- The values `MissionController.current_mission_type` takes in
`mission.py` (initialized to "IDLE", then set by the event listener). -/
inductive MissionType where
  | IDLE
  | MOB_SEARCH
  | STANDBY
  | PATROL
  | OVERWATCH
  | PAYLOAD_DELIVERY
deriving DecidableEq, Fintype

/-- The model state the transition conditions read (`self.model.role`,
`self.model.current_mission_type`). -/
structure Ctx where
  role : Role
  current_mission_type : MissionType
deriving DecidableEq, Fintype

/-- The triggers declared by `add_transition` in
`MissionStateMachine.__init__`. -/
inductive Trigger where
  | start_mission
  | start_standby_mission
  | start_patrol_mission
  | start_overwatch_mission
  | preflight_success
  | takeoff_success
  | target_sighted
  | reject_target
  | confirm_target
  | start_delivery_mission
  | search_complete_negative
  | delivery_request_sent
  | delivery_complete
  | patrol_complete
  | patrol_battery_low
  | overwatch_complete
  | arrived_home
  | land_complete
  | trigger_emergency
  | local_operator_takeover
  | local_operator_release
  | mission_finished
  | reset_from_emergency
deriving DecidableEq, Fintype

/-- The condition callbacks of `MissionStateMachine`. -/
inductive Cond where
  | is_scout
  | is_payload
  | is_utility
  | is_mob_search
  | is_standby_mission
  | is_patrol_mission
  | is_overwatch_mission
  | is_delivery_mission
deriving DecidableEq

def evalCond (ctx : Ctx) : Cond → Bool
  | .is_scout => ctx.role = Role.scout
  | .is_payload => ctx.role = Role.payload
  | .is_utility => ctx.role = Role.utility
  | .is_mob_search => ctx.current_mission_type = MissionType.MOB_SEARCH
  | .is_standby_mission => ctx.current_mission_type = MissionType.STANDBY
  | .is_patrol_mission => ctx.current_mission_type = MissionType.PATROL
  | .is_overwatch_mission => ctx.current_mission_type = MissionType.OVERWATCH
  | .is_delivery_mission =>
      ctx.current_mission_type = MissionType.PAYLOAD_DELIVERY

/-- A transition's source: a list of states, or the `'*'` wildcard (which
the `transitions` library expands to every state, the destination and
EMERGENCY included). -/
inductive Src where
  | states (ss : List MissionPhase)
  | any

def srcMatches (s : Src) (p : MissionPhase) : Bool :=
  match s with
  | .any => true
  | .states ss => ss.any fun q => q = p

/-- One `add_transition` row. -/
structure TransRow where
  trigger : Trigger
  src : Src
  dest : MissionPhase
  conditions : List Cond

/-- The transition table of `MissionStateMachine.__init__`
(state_machine.py:71-187), in declaration order — the order in which the
`transitions` library tries candidates for a trigger.  Note two
source-level defects kept visible here: the row at state_machine.py:109-115
writes its destination as `MissionPhase.ROLE_EMERGency_EYES` (a
miscapitalized, nonexistent enum member, an AttributeError when `__init__`
runs; the evident intent `ROLE_EMERGENCY_EYES` is used below), and that
same row guards only on `_is_overwatch_mission` — not on `_is_scout` — so
it shadows the `ROLE_EMERGENCY_ASSIST` row that follows it. -/
def transitionTable : List TransRow := [
  ⟨.start_mission, .states [.IDLE, .ROLE_UTILITY_TASK], .PREFLIGHT, []⟩,
  ⟨.start_standby_mission, .states [.IDLE, .ROLE_UTILITY_TASK], .PREFLIGHT, []⟩,
  ⟨.start_patrol_mission, .states [.IDLE], .PREFLIGHT, []⟩,
  ⟨.start_overwatch_mission, .states [.IDLE, .ROLE_UTILITY_TASK], .PREFLIGHT, []⟩,
  ⟨.preflight_success, .states [.PREFLIGHT], .TAKEOFF, []⟩,
  ⟨.takeoff_success, .states [.TAKEOFF], .ROLE_SEARCH_PRIMARY,
    [.is_mob_search, .is_scout]⟩,
  ⟨.takeoff_success, .states [.TAKEOFF], .ROLE_SEARCH_ASSIST,
    [.is_mob_search, .is_utility]⟩,
  ⟨.takeoff_success, .states [.TAKEOFF], .ROLE_EMERGENCY_STANDBY,
    [.is_standby_mission]⟩,
  ⟨.takeoff_success, .states [.TAKEOFF], .ROLE_UTILITY_TASK,
    [.is_patrol_mission]⟩,
  ⟨.takeoff_success, .states [.TAKEOFF], .ROLE_EMERGENCY_EYES,
    [.is_overwatch_mission]⟩,
  ⟨.takeoff_success, .states [.TAKEOFF], .ROLE_EMERGENCY_ASSIST,
    [.is_overwatch_mission, .is_utility]⟩,
  ⟨.target_sighted, .states [.ROLE_SEARCH_PRIMARY, .ROLE_SEARCH_ASSIST],
    .TARGET_PENDING_CONFIRMATION, []⟩,
  ⟨.reject_target, .states [.TARGET_PENDING_CONFIRMATION],
    .ROLE_SEARCH_PRIMARY, [.is_scout]⟩,
  ⟨.reject_target, .states [.TARGET_PENDING_CONFIRMATION],
    .ROLE_SEARCH_ASSIST, [.is_utility]⟩,
  ⟨.confirm_target, .states [.TARGET_PENDING_CONFIRMATION],
    .TARGET_CONFIRMED, []⟩,
  ⟨.start_delivery_mission, .states [.IDLE, .ROLE_EMERGENCY_STANDBY],
    .PREFLIGHT, []⟩,
  ⟨.takeoff_success, .states [.TAKEOFF], .DELIVERING,
    [.is_delivery_mission]⟩,
  ⟨.search_complete_negative,
    .states [.ROLE_SEARCH_PRIMARY, .ROLE_SEARCH_ASSIST], .RETURNING, []⟩,
  ⟨.delivery_request_sent, .states [.TARGET_CONFIRMED], .RETURNING, []⟩,
  ⟨.delivery_complete, .states [.DELIVERING], .RETURNING, []⟩,
  ⟨.patrol_complete, .states [.ROLE_UTILITY_TASK], .RETURNING, []⟩,
  ⟨.patrol_battery_low, .states [.ROLE_UTILITY_TASK], .RETURNING, []⟩,
  ⟨.overwatch_complete,
    .states [.ROLE_EMERGENCY_EYES, .ROLE_EMERGENCY_ASSIST], .RETURNING, []⟩,
  ⟨.arrived_home, .states [.RETURNING], .LANDING, []⟩,
  ⟨.land_complete, .states [.LANDING], .COMPLETED, []⟩,
  ⟨.trigger_emergency, .any, .EMERGENCY, []⟩,
  ⟨.local_operator_takeover, .any, .LOCAL_OPERATOR_CONTROL, []⟩,
  ⟨.local_operator_release, .states [.LOCAL_OPERATOR_CONTROL],
    .RETURNING, []⟩,
  ⟨.mission_finished, .states [.COMPLETED], .IDLE, []⟩,
  ⟨.reset_from_emergency, .states [.EMERGENCY], .IDLE, []⟩]

/-- Result of firing a trigger: `ok newPhase transitioned` — the
`transitions` library returns True when a transition executed (the
`after_state_change` callback then publishes a `fleet/state/<id>` message)
and False when every candidate's conditions failed; or a raised
`MachineError` when the current state has no transition for the trigger at
all (`ignore_invalid_triggers` is left at its default). -/
inductive FireResult where
  | ok (newPhase : MissionPhase) (transitioned : Bool)
  | machineError
deriving DecidableEq

def rowsFor (t : Trigger) (p : MissionPhase) : List TransRow :=
  transitionTable.filter fun r => decide (r.trigger = t) && srcMatches r.src p

def condsHold (ctx : Ctx) (r : TransRow) : Bool :=
  r.conditions.all (evalCond ctx)

/-- Firing a trigger on the AsyncMachine of `MissionStateMachine`. -/
def fireTrigger (t : Trigger) (ctx : Ctx) (p : MissionPhase) : FireResult :=
  let rows := rowsFor t p
  if rows.isEmpty then .machineError
  else
    match rows.find? (condsHold ctx) with
    | some r => .ok r.dest true
    | none => .ok p false

end StateMachine

section StateMachineClaims

/-- Claim C2 counterexample: from EMERGENCY, firing
`local_operator_takeover` executes a transition that leaves EMERGENCY for
LOCAL_OPERATOR_CONTROL — its source is the `'*'` wildcard
(state_machine.py:182), which includes EMERGENCY — contradicting both
"no trigger other than reset_from_emergency produces a transition out of
EMERGENCY" and "LOCAL_OPERATOR_CONTROL is enterable from any state except
EMERGENCY". -/
theorem C2_counterexample :
    fireTrigger .local_operator_takeover ⟨.scout, .IDLE⟩ .EMERGENCY =
      .ok .LOCAL_OPERATOR_CONTROL true := by decide

/-- Claim C2 (amended): once the current phase is EMERGENCY, the only
triggers that execute a transition are `reset_from_emergency` (to IDLE),
`local_operator_takeover` (to LOCAL_OPERATOR_CONTROL, via its `'*'`
wildcard source) and `trigger_emergency` (a self-transition that stays in
EMERGENCY); every other trigger produces no transition. -/
theorem C2_emergency_transitions (t : Trigger) (ctx : Ctx)
    (p : MissionPhase) :
    fireTrigger t ctx .EMERGENCY = .ok p true →
      (t = .reset_from_emergency ∧ p = .IDLE) ∨
      (t = .local_operator_takeover ∧ p = .LOCAL_OPERATOR_CONTROL) ∨
      (t = .trigger_emergency ∧ p = .EMERGENCY) := by
  revert t ctx p
  decide

theorem C2_emergency_transitions_witness :
    fireTrigger .reset_from_emergency ⟨.scout, .IDLE⟩ .EMERGENCY =
      FireResult.ok .IDLE true ∧
    ((Trigger.reset_from_emergency = Trigger.reset_from_emergency ∧
        MissionPhase.IDLE = MissionPhase.IDLE) ∨
      (Trigger.reset_from_emergency = Trigger.local_operator_takeover ∧
        MissionPhase.IDLE = MissionPhase.LOCAL_OPERATOR_CONTROL) ∨
      (Trigger.reset_from_emergency = Trigger.trigger_emergency ∧
        MissionPhase.IDLE = MissionPhase.EMERGENCY)) :=
  ⟨by decide,
    C2_emergency_transitions .reset_from_emergency ⟨.scout, .IDLE⟩ .IDLE
      (by decide)⟩

/-- Claim C6 counterexample: firing `preflight_success` from IDLE — a
phase from which no transition for that trigger is declared — is not a
silent no-op: the `transitions` library raises MachineError
(`ignore_invalid_triggers` is left unset in the AsyncMachine constructed
at state_machine.py:60-65). -/
theorem C6_counterexample :
    fireTrigger .preflight_success ⟨.scout, .IDLE⟩ .IDLE =
        FireResult.machineError ∧
      fireTrigger .preflight_success ⟨.scout, .IDLE⟩ .IDLE ≠
        FireResult.ok .IDLE false := by decide

/-- Claim C6 (amended): a trigger for which some transition from the
current phase is declared but whose guards all fail is a silent no-op
(returns False: phase unchanged, no state-change message emitted); a
trigger with no declared transition from the current phase raises
MachineError instead of being silently ignored. -/
theorem C6_rejected_triggers (t : Trigger) (ctx : Ctx) (p : MissionPhase) :
    ((∀ r ∈ transitionTable,
        ¬(r.trigger = t ∧ srcMatches r.src p = true)) →
      fireTrigger t ctx p = .machineError) ∧
    ((∃ r ∈ transitionTable, r.trigger = t ∧ srcMatches r.src p = true) →
      (∀ r ∈ transitionTable, r.trigger = t → srcMatches r.src p = true →
        condsHold ctx r = false) →
      fireTrigger t ctx p = .ok p false) := by
  constructor
  · intro h
    have hrows : rowsFor t p = [] := by
      rw [rowsFor, List.filter_eq_nil]
      intro r hr
      have := h r hr
      simp only [Bool.and_eq_true, decide_eq_true_eq]
      intro hcon
      exact this ⟨hcon.1, hcon.2⟩
    rw [fireTrigger]
    simp [hrows]
  · rintro ⟨r, hr, hrt, hrs⟩ hall
    have hmem : r ∈ rowsFor t p := by
      rw [rowsFor, List.mem_filter]
      exact ⟨hr, by simp only [Bool.and_eq_true, decide_eq_true_eq]
                    exact ⟨hrt, hrs⟩⟩
    have hne : (rowsFor t p).isEmpty = false := by
      cases hrows : rowsFor t p with
      | nil => rw [hrows] at hmem; exact absurd hmem (List.not_mem_nil r)
      | cons a l => rfl
    have hfind : (rowsFor t p).find? (condsHold ctx) = none := by
      rw [List.find?_eq_none]
      intro x hx
      rw [rowsFor, List.mem_filter] at hx
      obtain ⟨hx1, hx2⟩ := hx
      simp only [Bool.and_eq_true, decide_eq_true_eq] at hx2
      rw [hall x hx1 hx2.1 hx2.2]
      exact Bool.false_ne_true
    rw [fireTrigger]
    simp [hne, hfind]

theorem C6_rejected_triggers_witness :
    (∀ r ∈ transitionTable,
      ¬(r.trigger = Trigger.preflight_success ∧
        srcMatches r.src MissionPhase.IDLE = true)) ∧
    fireTrigger .preflight_success ⟨.scout, .IDLE⟩ .IDLE =
      FireResult.machineError :=
  ⟨by decide,
    (C6_rejected_triggers .preflight_success ⟨.scout, .IDLE⟩ .IDLE).1
      (by decide)⟩

/-- Claim C9: the code diverges from the claim.  At the failing input
(phase TAKEOFF, mission type OVERWATCH, role utility — not scout) the
`takeoff_success` transition to ROLE_EMERGENCY_EYES fires anyway, because
the row at state_machine.py:109-115 guards only on
`_is_overwatch_mission` and so shadows the utility-specific
ROLE_EMERGENCY_ASSIST row declared after it.  (In the source as written
the destination is the miscapitalized `MissionPhase.ROLE_EMERGency_EYES`,
so constructing the machine raises AttributeError outright.) -/
theorem C9_takeoff_overwatch_nonscout :
    fireTrigger .takeoff_success ⟨.utility, .OVERWATCH⟩ .TAKEOFF =
        FireResult.ok .ROLE_EMERGENCY_EYES true ∧
      fireTrigger .takeoff_success ⟨.payload, .OVERWATCH⟩ .TAKEOFF =
        FireResult.ok .ROLE_EMERGENCY_EYES true ∧
      fireTrigger .takeoff_success ⟨.scout, .OVERWATCH⟩ .TAKEOFF =
        FireResult.ok .ROLE_EMERGENCY_EYES true := by decide

end StateMachineClaims

section HealthMonitor

/-- The telemetry fields `_health_monitor` and `is_healthy` read
(`Telemetry` in drone.py; `state` is the vehicle mode string, e.g.
"MANUAL" or "GUIDED"). -/
structure Telemetry where
  is_connected : Bool
  battery : ℚ
  last_heartbeat : ℚ
  state : String
deriving DecidableEq

/-- `HealthConfig` from `config_models.py`. -/
structure HealthConfig where
  min_battery_preflight : ℚ
  min_battery_emergency : ℚ
  min_battery_patrol_rtl : ℚ
  max_heartbeat_latency : ℚ
deriving DecidableEq

inductive PyError where
  | typeError
  | attributeError
deriving DecidableEq

/-- The call `self.drone.is_healthy()` at mission.py:293.  `Drone.is_healthy`
(drone.py:106) requires two positional arguments
`(battery_threshold, heartbeat_threshold)`, so the zero-argument call
raises TypeError before the body runs; and the body itself reads the
nonexistent attribute `self.telemetry.last_heartheartbeat_threshold`
(drone.py:110, a garbled merge of `last_heartbeat` and
`heartbeat_threshold`), an AttributeError on any call.  The call therefore
never returns a Bool. -/
def is_healthy_call : Except PyError Bool := Except.error PyError.typeError

/-- What one health-monitor tick fires and publishes. -/
structure TickResult where
  fired_takeover : Bool
  fired_release : Bool
  fired_emergency : Bool
  published_telemetry : Bool
deriving DecidableEq

/-- One iteration of `MissionController._health_monitor`
(mission.py:275-321): phases IDLE and PREFLIGHT skip all checks; in
LOCAL_OPERATOR_CONTROL the health check is skipped (and a release fires if
the mode left MANUAL); otherwise the `is_healthy()` call is evaluated —
and since it raises, control reaches the `except` handler, which fires
`trigger_emergency` (mission.py:319-321) and skips the telemetry publish
for that tick. -/
def health_tick (phase : MissionPhase) (telem : Telemetry) : TickResult :=
  if phase = MissionPhase.IDLE ∨ phase = MissionPhase.PREFLIGHT then
    ⟨false, false, false, true⟩
  else
    let is_manual : Bool := telem.state == "MANUAL"
    let in_local : Bool := phase = MissionPhase.LOCAL_OPERATOR_CONTROL
    let tk := is_manual && !in_local
    let rel := !is_manual && in_local
    if in_local then ⟨tk, rel, false, true⟩
    else
      match is_healthy_call with
      | Except.ok b => if !b then ⟨tk, rel, true, false⟩
          else ⟨tk, rel, false, true⟩
      | Except.error _ => ⟨tk, rel, true, false⟩

/-- Modelled from the spec: the health predicate the spec (and the claim)
states — telemetry fails when the battery is below the emergency
threshold, or the last heartbeat is older than the max latency, or the
drone is disconnected.  The source's `Drone.is_healthy` is intended to
compute this but cannot be evaluated (see `is_healthy_call`). -/
def health_predicate_fails (cfg : HealthConfig) (telem : Telemetry)
    (now : ℚ) : Prop :=
  telem.battery < cfg.min_battery_emergency ∨
    now - telem.last_heartbeat > cfg.max_heartbeat_latency ∨
    telem.is_connected = false

/-- Claim C3: code bug.  With telemetry that passes the health predicate
(connected, battery 100 far above the emergency threshold 20, heartbeat
fresh), a tick in phase ROLE_SEARCH_PRIMARY still fires
`trigger_emergency`, because the zero-argument `is_healthy()` call raises
and the monitor's blanket `except` handler fires `trigger_emergency` on
any exception.  (In LOCAL_OPERATOR_CONTROL, and in IDLE/PREFLIGHT, no
emergency fires, as the claim says.) -/
theorem C3_healthy_tick_fires_emergency :
    ¬health_predicate_fails ⟨50, 20, 30, 5⟩ ⟨true, 100, 1000, "GUIDED"⟩
        1000 ∧
      (health_tick .ROLE_SEARCH_PRIMARY
        ⟨true, 100, 1000, "GUIDED"⟩).fired_emergency = true ∧
      (health_tick .LOCAL_OPERATOR_CONTROL
        ⟨true, 100, 1000, "GUIDED"⟩).fired_emergency = false ∧
      (health_tick .IDLE
        ⟨true, 100, 1000, "GUIDED"⟩).fired_emergency = false := by
  refine ⟨?_, rfl, rfl, rfl⟩
  rw [health_predicate_fails]
  push_neg
  norm_num

end HealthMonitor

section Coordinator

/-- The per-drone record the Coordinator keeps (`FleetVehicle`): the
configured id and role, and the last reported `mission_phase` string
("UNKNOWN" until the drone connects).  The roster list is in registration
(config) order, as `self.fleet` — a Python dict — iterates. -/
structure FleetEntry where
  id : String
  role : Role
  mission_phase : String
deriving DecidableEq

/-- `Coordinator._find_drone_by_role`: the first drone id of the given
role in roster order, ignoring its phase. -/
def find_drone_by_role (fleet : List FleetEntry) (r : Role) :
    Option String :=
  (fleet.find? fun e => decide (e.role = r)).map (fun e => e.id)

def phase_of (fleet : List FleetEntry) (i : String) : Option String :=
  (fleet.find? fun e => e.id == i).map (fun e => e.mission_phase)

/-- `drone_id and self.fleet.get(drone_id) and
self.fleet[drone_id].mission_phase in phases`. -/
def drone_available (fleet : List FleetEntry) (i : String)
    (phases : List String) : Bool :=
  match phase_of fleet i with
  | some ph => phases.contains ph
  | none => false

/-- The externally visible actions of `Coordinator.trigger_mob_event`, in
program order. -/
inductive CoordAction where
  | initGrid
  | publishStartMission (drone : String)
  | restartSearchLoop (drone : String)
  | broadcastError
  | broadcastWarning
deriving DecidableEq

/-- Step 4 of `trigger_mob_event`: warn unless the payload drone exists
and its phase is exactly "IDLE". -/
def payload_precheck (fleet : List FleetEntry) : List CoordAction :=
  match find_drone_by_role fleet Role.payload with
  | some pid =>
      if drone_available fleet pid ["IDLE"] then []
      else [CoordAction.broadcastWarning]
  | none => [CoordAction.broadcastWarning]

/-- The utility failover branch of `trigger_mob_event`
(coordinator.py:289-307): task the first utility if it is IDLE or
PATROLLING, else broadcast ERROR and return (skipping the payload
pre-check). -/
def mob_failover (fleet : List FleetEntry) : List CoordAction :=
  match find_drone_by_role fleet Role.utility with
  | some uid =>
      if drone_available fleet uid ["IDLE", "PATROLLING"] then
        CoordAction.publishStartMission uid ::
          CoordAction.restartSearchLoop uid :: payload_precheck fleet
      else [CoordAction.broadcastError]
  | none => [CoordAction.broadcastError]

/-- `Coordinator.trigger_mob_event` (coordinator.py:261-313): initialize
the probability grid; task the first configured scout if its phase is IDLE
or PATROLLING (publish START_MISSION type MOB_SEARCH and cancel+restart
the search control loop), else fail over to the first utility; if neither
is available broadcast ERROR and stop; when a drone was tasked, pre-check
the payload drone and broadcast WARNING if it is busy or missing. -/
def trigger_mob_event (fleet : List FleetEntry) : List CoordAction :=
  CoordAction.initGrid ::
    (match find_drone_by_role fleet Role.scout with
    | some sid =>
        if drone_available fleet sid ["IDLE", "PATROLLING"] then
          CoordAction.publishStartMission sid ::
            CoordAction.restartSearchLoop sid :: payload_precheck fleet
        else mob_failover fleet
    | none => mob_failover fleet)

def first_scout_available (fleet : List FleetEntry) : Option String :=
  match find_drone_by_role fleet Role.scout with
  | some sid =>
      if drone_available fleet sid ["IDLE", "PATROLLING"] then some sid
      else none
  | none => none

def first_utility_available (fleet : List FleetEntry) : Option String :=
  match find_drone_by_role fleet Role.utility with
  | some uid =>
      if drone_available fleet uid ["IDLE", "PATROLLING"] then some uid
      else none
  | none => none

def payload_idle (fleet : List FleetEntry) : Bool :=
  match find_drone_by_role fleet Role.payload with
  | some pid => drone_available fleet pid ["IDLE"]
  | none => false

end Coordinator

section CoordinatorClaims

/-- Claim C7 (amended): TRIGGER_MOB_MODE handling checks only the FIRST
configured drone of each role.  The grid is always re-initialized first;
when the first configured scout has phase IDLE or PATROLLING a
START_MISSION (type MOB_SEARCH) is published to it (and the search loop
restarted); otherwise, when the first configured utility has such a phase,
that utility is tasked; otherwise no START_MISSION is published, an ERROR
is broadcast to the GCS, and the payload pre-check is skipped; when a
search drone was tasked, a WARNING is broadcast iff the first configured
payload drone is missing or not IDLE. -/
theorem C7_trigger_mob_event (fleet : List FleetEntry) :
    ((trigger_mob_event fleet).head? = some CoordAction.initGrid) ∧
    (∀ sid, first_scout_available fleet = some sid →
      CoordAction.publishStartMission sid ∈ trigger_mob_event fleet ∧
      CoordAction.broadcastError ∉ trigger_mob_event fleet ∧
      (CoordAction.broadcastWarning ∈ trigger_mob_event fleet ↔
        payload_idle fleet = false)) ∧
    (first_scout_available fleet = none →
      ∀ uid, first_utility_available fleet = some uid →
        CoordAction.publishStartMission uid ∈ trigger_mob_event fleet ∧
        CoordAction.broadcastError ∉ trigger_mob_event fleet ∧
        (CoordAction.broadcastWarning ∈ trigger_mob_event fleet ↔
          payload_idle fleet = false)) ∧
    (first_scout_available fleet = none →
      first_utility_available fleet = none →
      (∀ i, CoordAction.publishStartMission i ∉ trigger_mob_event fleet) ∧
      CoordAction.broadcastError ∈ trigger_mob_event fleet ∧
      CoordAction.broadcastWarning ∉ trigger_mob_event fleet) := by
  have hpc : payload_precheck fleet = [] ∧ payload_idle fleet = true ∨
      payload_precheck fleet = [CoordAction.broadcastWarning] ∧
        payload_idle fleet = false := by
    cases hfp : find_drone_by_role fleet Role.payload with
    | none =>
      right
      constructor <;> simp [payload_precheck, payload_idle, hfp]
    | some pid =>
      by_cases h : drone_available fleet pid ["IDLE"] = true
      · left
        constructor <;> simp [payload_precheck, payload_idle, hfp, h]
      · right
        rw [Bool.not_eq_true] at h
        constructor <;> simp [payload_precheck, payload_idle, hfp, h]
  have hfail : first_utility_available fleet = none →
      mob_failover fleet = [CoordAction.broadcastError] := by
    intro hu
    cases hu2 : find_drone_by_role fleet Role.utility with
    | none => simp [mob_failover, hu2]
    | some u =>
      simp only [first_utility_available, hu2] at hu
      by_cases ha : drone_available fleet u ["IDLE", "PATROLLING"] = true
      · rw [if_pos ha] at hu
        exact absurd hu (by simp)
      · rw [Bool.not_eq_true] at ha
        simp [mob_failover, hu2, ha]
  refine ⟨?_, ?_, ?_, ?_⟩
  · rw [trigger_mob_event]
    rfl
  · intro sid hsid
    cases hf : find_drone_by_role fleet Role.scout with
    | none =>
      simp only [first_scout_available, hf] at hsid
      exact absurd hsid (by simp)
    | some s =>
      simp only [first_scout_available, hf] at hsid
      by_cases ha : drone_available fleet s ["IDLE", "PATROLLING"] = true
      · rw [if_pos ha] at hsid
        obtain rfl : s = sid := by simpa using hsid
        rcases hpc with ⟨hp, hi⟩ | ⟨hp, hi⟩ <;> rw [hi] <;>
          simp [trigger_mob_event, hf, ha, hp]
      · rw [if_neg ha] at hsid
        exact absurd hsid (by simp)
  · intro hs uid huid
    have hbranch : trigger_mob_event fleet =
        CoordAction.initGrid :: mob_failover fleet := by
      cases hf : find_drone_by_role fleet Role.scout with
      | none => simp [trigger_mob_event, hf]
      | some s =>
        simp only [first_scout_available, hf] at hs
        by_cases ha : drone_available fleet s ["IDLE", "PATROLLING"] = true
        · rw [if_pos ha] at hs
          exact absurd hs (by simp)
        · rw [Bool.not_eq_true] at ha
          simp [trigger_mob_event, hf, ha]
    cases hu : find_drone_by_role fleet Role.utility with
    | none =>
      simp only [first_utility_available, hu] at huid
      exact absurd huid (by simp)
    | some u =>
      simp only [first_utility_available, hu] at huid
      by_cases ha : drone_available fleet u ["IDLE", "PATROLLING"] = true
      · rw [if_pos ha] at huid
        obtain rfl : u = uid := by simpa using huid
        rcases hpc with ⟨hp, hi⟩ | ⟨hp, hi⟩ <;> rw [hi] <;>
          rw [hbranch] <;> simp [mob_failover, hu, ha, hp]
      · rw [if_neg ha] at huid
        exact absurd huid (by simp)
  · intro hs hu
    have hbranch : trigger_mob_event fleet =
        CoordAction.initGrid :: mob_failover fleet := by
      cases hf : find_drone_by_role fleet Role.scout with
      | none => simp [trigger_mob_event, hf]
      | some s =>
        simp only [first_scout_available, hf] at hs
        by_cases ha : drone_available fleet s ["IDLE", "PATROLLING"] = true
        · rw [if_pos ha] at hs
          exact absurd hs (by simp)
        · rw [Bool.not_eq_true] at ha
          simp [trigger_mob_event, hf, ha]
    rw [hbranch, hfail hu]
    refine ⟨fun i => by simp, by simp, by simp⟩

/-- The counterexample roster: two scouts — the first busy (RETURNING),
the second IDLE — and a busy payload drone. -/
def fleetCx : List FleetEntry :=
  [⟨"scout_1", Role.scout, "RETURNING"⟩,
   ⟨"scout_2", Role.scout, "IDLE"⟩,
   ⟨"payload_1", Role.payload, "RETURNING"⟩]

/-- Claim C7 counterexample: on `fleetCx` a configured scout (scout_2) has
phase IDLE, yet `trigger_mob_event` publishes no START_MISSION at all and
broadcasts ERROR — `_find_drone_by_role` returns the first scout by
roster order (scout_1, RETURNING) and only that one is checked; and
although the payload drone is not IDLE, no WARNING is broadcast, because
the ERROR branch returns before the payload pre-check. -/
theorem C7_counterexample :
    trigger_mob_event fleetCx =
        [CoordAction.initGrid, CoordAction.broadcastError] ∧
      (∃ e ∈ fleetCx, e.role = Role.scout ∧ e.mission_phase = "IDLE") ∧
      (∀ i, CoordAction.publishStartMission i ∉ trigger_mob_event fleetCx) ∧
      CoordAction.broadcastWarning ∉ trigger_mob_event fleetCx ∧
      (∀ e ∈ fleetCx, e.role = Role.payload → e.mission_phase ≠ "IDLE") := by
  have heq : trigger_mob_event fleetCx =
      [CoordAction.initGrid, CoordAction.broadcastError] := by rfl
  refine ⟨heq, ⟨⟨"scout_2", Role.scout, "IDLE"⟩, by decide⟩, ?_, ?_, by decide⟩
  · intro i h
    rw [heq] at h
    simp at h
  · rw [heq]
    decide

theorem C7_trigger_mob_event_witness :
    first_scout_available fleetCx = none ∧
      first_utility_available fleetCx = none ∧
      CoordAction.broadcastError ∈ trigger_mob_event fleetCx :=
  ⟨by decide, by decide,
    ((C7_trigger_mob_event fleetCx).2.2.2 (by decide) (by decide)).2.1⟩

end CoordinatorClaims

end DroneMob
